import Mathlib

/-!
Verification of the framing, correlation and timeout core of the
`iamfat/modbus` TypeScript library (`src/index.ts`), against its
natural-language specification.

Byte buffers (`ArrayBuffer` / `Uint8Array`) are modelled as `List Nat`
whose elements are bytes (values < 256 wherever they are produced by the
encoders; the decoders read bytes with `List.getD _ 0`, and every read in
a verified code path is in bounds, matching `DataView` which throws on an
out-of-range access).
-/

namespace Modbus

set_option maxRecDepth 100000

/-- `view.getUint8(i)` on a buffer.  All uses on verified paths are in
bounds (DataView would throw out of bounds). -/
def byteAt (b : List Nat) (i : Nat) : Nat := b.getD i 0

/-- `view.getUint16(i, false)` — big-endian 16-bit read. -/
def getU16BE (b : List Nat) (i : Nat) : Nat := 256 * byteAt b i + byteAt b (i + 1)

/-- `view.getUint16(i, true)` — little-endian 16-bit read. -/
def getU16LE (b : List Nat) (i : Nat) : Nat := byteAt b i + 256 * byteAt b (i + 1)

/-- `view.setUint16(_, v, false)` — the two bytes stored, big-endian
(JS truncates the value to 16 bits). -/
def u16BE (v : Nat) : List Nat := [v % 65536 / 256, v % 256]

/-- `view.setUint16(_, v, true)` — the two bytes stored, little-endian. -/
def u16LE (v : Nat) : List Nat := [v % 256, v % 65536 / 256]

/-- One inner iteration of `crc16`'s bit loop:
`odd = crc & 1; crc >>= 1; if (odd) crc ^= 0xa001`. -/
def crcRound (crc : Nat) : Nat :=
  let odd := crc % 2
  let c := crc / 2
  if odd = 1 then c ^^^ 0xa001 else c

/-- One outer iteration of `crc16`: xor the byte in, then 8 bit rounds. -/
def crcByte (crc b : Nat) : Nat := crcRound^[8] (crc ^^^ b)

/-- `crc16(buffer)` from `src/index.ts` (init 0xFFFF, reflected polynomial
0xA001, one byte at a time, LSB first). -/
def crc16 (bytes : List Nat) : Nat := bytes.foldl crcByte 0xffff

/-- Shared tail of every encoder: `view.setUint16(codeLength,
crc16(buf.slice(0, -2)), true)` — append the CRC of the body,
little-endian. -/
def appendCrc (body : List Nat) : List Nat := body ++ u16LE (crc16 body)

/-- The `Frame` record of `src/index.ts`:
`{ crc, address, code, length, data }` where `data` is the frame bytes
without the 2-byte CRC trailer. -/
structure Frame where
  crc : Nat
  address : Nat
  code : Nat
  length : Nat
  data : List Nat
deriving DecidableEq, Repr

/-- The `Response`/`Request` result objects of `src/index.ts`: plain JS
objects in which only some fields are present; absent fields are `none`. -/
structure ModResult where
  address : Option Nat := none
  state : Option Bool := none
  value : Option Nat := none
  states : Option (List Bool) := none
  data : Option (List Nat) := none
  length : Option Nat := none
deriving DecidableEq, Repr

/-- The bit-unpacking loops of `parseCoils` (and of `parseOutgoingResult`
for code 15): for each of `count` bytes starting at `base`, push the 8
bits LSB-first (`(reg & 1) === 1`, then `reg >>= 1`). -/
def coilStates (d : List Nat) (base count : Nat) : List Bool :=
  (List.range count).flatMap fun i =>
    (List.range 8).map fun j => (byteAt d (i + base)).testBit j

/-- `ModBus.parseCoils` (FC 1, 2): byte-count at offset 2 of `frame.data`,
payload bytes from offset 3. -/
def parseCoils (f : Frame) : ModResult :=
  { states := some (coilStates f.data 3 (byteAt f.data 2)) }

/-- `ModBus.parseInputRegisters` (FC 3, 4): byte-count at offset 2, then
big-endian u16 reads at offsets 3, 5, 7, … while `i < length` stepping 2. -/
def parseInputRegisters (f : Frame) : ModResult :=
  { data := some ((List.range ((byteAt f.data 2 + 1) / 2)).map fun k =>
      getU16BE f.data (2 * k + 3)) }

/-- `ModBus.parseSingleCoil` (FC 5). -/
def parseSingleCoil (f : Frame) : ModResult :=
  { address := some (getU16BE f.data 2), state := some (getU16BE f.data 4 == 0xff00) }

/-- `ModBus.parseSingleRegister` (FC 6). -/
def parseSingleRegister (f : Frame) : ModResult :=
  { address := some (getU16BE f.data 2), value := some (getU16BE f.data 4) }

/-- `ModBus.parseMultipleRegisters` (FC 15, 16 responses). -/
def parseMultipleRegisters (f : Frame) : ModResult :=
  { address := some (getU16BE f.data 2), length := some (getU16BE f.data 4) }

/-- The incoming-result dispatch in `ModBus.tryParse` (`result` starts as
`null` and is assigned in the code branches). -/
def incomingResult (f : Frame) : Option ModResult :=
  if f.code = 1 ∨ f.code = 2 then some (parseCoils f)
  else if f.code = 3 ∨ f.code = 4 then some (parseInputRegisters f)
  else if f.code = 5 then some (parseSingleCoil f)
  else if f.code = 6 then some (parseSingleRegister f)
  else if f.code = 15 ∨ f.code = 16 then some (parseMultipleRegisters f)
  else none

/-- The length computation of `ModBus.parseIncomingFrame`:
`code >= 1 && code <= 4 ? view.getUint8(2) + 5 : 8`. -/
def frameLengthIn (b : List Nat) : Nat :=
  if 1 ≤ byteAt b 1 ∧ byteAt b 1 ≤ 4 then byteAt b 2 + 5 else 8

/-- `ModBus.parseIncomingFrame`.  `undefined` (insufficient data) is
`none`; the local `length` is `frameLengthIn b`. -/
def parseIncomingFrame (b : List Nat) : Option Frame :=
  if b.length < frameLengthIn b then none
  else some { crc := getU16LE b (frameLengthIn b - 2), address := byteAt b 0,
              code := byteAt b 1, length := frameLengthIn b,
              data := b.take (frameLengthIn b - 2) }

/-- The length computation of `ModBus.parseOutgoingFrame`.  Note the
source reads the byte count for codes 15 and 16 from offset 5 (and sums
the header as 10 bytes); codes outside the handled set leave `length = 0`
(on that path the source would then throw on `getUint16(-2)`; no verified
claim exercises such codes). -/
def frameLengthOut (b : List Nat) : Nat :=
  if 1 ≤ byteAt b 1 ∧ byteAt b 1 ≤ 4 then 8
  else if byteAt b 1 = 5 then 8
  else if byteAt b 1 = 6 then 8
  else if byteAt b 1 = 15 then 2 + 2 + 2 + 2 + 2 + byteAt b 5
  else if byteAt b 1 = 16 then 2 + 2 + 2 + 2 + 2 + byteAt b 5
  else 0

/-- `ModBus.parseOutgoingFrame`. -/
def parseOutgoingFrame (b : List Nat) : Option Frame :=
  if b.length < 8 then none
  else if b.length < frameLengthOut b then none
  else some { crc := getU16LE b (frameLengthOut b - 2), address := byteAt b 0,
              code := byteAt b 1, length := frameLengthOut b,
              data := b.take (frameLengthOut b - 2) }

/-- `ModBus.parseOutgoingResult`.  For code 15 the source unpacks
`dataLength = getUint16(4)` bytes starting at offset 6; for code 16 it
reads u16 values at offsets `i + 3` while `i < dataLength` stepping 2. -/
def parseOutgoingResult (f : Frame) : Option ModResult :=
  if 1 ≤ f.code ∧ f.code ≤ 4 then
    some { address := some (getU16BE f.data 2), length := some (getU16BE f.data 4) }
  else if f.code = 5 then
    some { address := some (getU16BE f.data 2), states := some [getU16BE f.data 4 == 0xff00] }
  else if f.code = 6 then
    some { address := some (getU16BE f.data 2), data := some [getU16BE f.data 4] }
  else if f.code = 15 then
    some { address := some (getU16BE f.data 2),
           states := some (coilStates f.data 6 (getU16BE f.data 4)) }
  else if f.code = 16 then
    some { address := some (getU16BE f.data 2),
           data := some ((List.range ((getU16BE f.data 4 + 1) / 2)).map fun k =>
             getU16BE f.data (2 * k + 3)) }
  else none

/-- The four control-flow outcomes of `ModBus.tryParse`: the thrown
`TooShortError`, `FrameError` and `CRCError`, or a normal return of
`{ frame, result }`. -/
inductive ParseOutcome where
  | tooShort
  | frameError
  | crcError (f : Frame)
  | ok (f : Frame) (r : Option ModResult)
deriving DecidableEq, Repr

/-- `ModBus.tryParse(buffer, incoming)`. -/
def tryParse (b : List Nat) (incoming : Bool) : ParseOutcome :=
  if b.length < 5 then .tooShort
  else
    match (if incoming then parseIncomingFrame b else parseOutgoingFrame b) with
    | none => .frameError
    | some frame =>
      if frame.crc ≠ crc16 frame.data then .crcError frame
      else if incoming then .ok frame (incomingResult frame)
      else .ok frame (parseOutgoingResult frame)

/-- The `Expectation` record (its pure data part: `resolve`/`reject`/
`timeout` are the promise/timer handles, modelled by the correlator
below). -/
structure Expectation where
  address : Nat
  code : Nat
  length : Nat
deriving DecidableEq, Repr

/-- The two rejection signals produced by the core (`rejectExpectation`'s
error strings `UNEXPECTED_RESPONSE` and `EXPECT_TIMEOUT …`). -/
inductive ModError where
  | unexpectedResponse
  | expectTimeout
deriving DecidableEq, Repr

/-- One settlement of a caller's pending result: `resolve(result)` or
`reject(new Error(error))`. -/
inductive Settlement where
  | resolved (r : Option ModResult)
  | rejected (e : ModError)
deriving DecidableEq, Repr

/-- The mutable per-bus state touched by `ModBus.read`:
`readingBuffer`, `currentExpectation`, and the trace of settlements the
promises observed (oldest first). -/
structure BusState where
  readingBuffer : List Nat
  currentExpectation : Option Expectation
  settlements : List Settlement
deriving DecidableEq, Repr

/-- `ModBus.isExpecting(frame)`: false when no expectation is pending,
otherwise the conjunction of the address, length and code checks. -/
def isExpecting (exp : Option Expectation) (f : Frame) : Bool :=
  match exp with
  | none => false
  | some e => f.address == e.address && f.length == e.length && f.code == e.code

/-- The `for (;;)` loop of `ModBus.read`, with explicit fuel.  Each
iteration that recurses consumes at least 5 bytes of `b` (a parsed
frame's `length` is at least 5), so any `fuel > b.length` computes the
loop's true fixpoint; `readLoop` below supplies `b.length + 1`.
Branches:
  * normal parse → `resolveExpectation` when `isExpecting`, else
    `rejectExpectation('UNEXPECTED_RESPONSE')` — which, when
    `currentExpectation` is `undefined`, throws a `TypeError` while
    destructuring, caught by the surrounding `catch`, breaking the loop
    with the buffer unconsumed;
  * `CRCError` → skip the frame's declared length and continue;
  * `TooShortError` / `FrameError` → break.
On exit the source stores the remaining bytes in `readingBuffer`. -/
def readLoopF : Nat → BusState → List Nat → BusState
  | 0, st, b => { st with readingBuffer := b }
  | fuel + 1, st, b =>
    match tryParse b true with
    | .ok frame result =>
      if isExpecting st.currentExpectation frame then
        readLoopF fuel
          { st with currentExpectation := none,
                    settlements := st.settlements ++ [.resolved result] }
          (b.drop frame.length)
      else
        match st.currentExpectation with
        | some _ =>
          readLoopF fuel
            { st with currentExpectation := none,
                      settlements := st.settlements ++ [.rejected .unexpectedResponse] }
            (b.drop frame.length)
        | none => { st with readingBuffer := b }
    | .crcError frame => readLoopF fuel st (b.drop frame.length)
    | .tooShort => { st with readingBuffer := b }
    | .frameError => { st with readingBuffer := b }

/-- The loop of `ModBus.read` applied to an assembled buffer. -/
def readLoop (st : BusState) (b : List Nat) : BusState := readLoopF (b.length + 1) st b

/-- `ModBus.read(chunk)`: append the chunk to `readingBuffer` and run the
parse loop. -/
def BusState.read (st : BusState) (chunk : List Nat) : BusState :=
  readLoop st (st.readingBuffer ++ chunk)

/-! ## Request encoders (`…Buffer` methods) and the expectations the
operation methods register. -/

/-- `ModBus.readStatusBuffer` / `ModBus.readRegistersBuffer` (identical
bodies): `[address][code][dataAddress BE][length BE][crc LE]`. -/
def readStatusBuffer (address dataAddress length code : Nat) : List Nat :=
  appendCrc ([address % 256, code % 256] ++ u16BE dataAddress ++ u16BE length)

/-- The expected response length registered by `ModBus.readStatus`:
`3 + Math.floor((length - 1) / 8 + 1) + 2` (JS float division, floored). -/
def statusExpectedLength (length : Nat) : Nat :=
  3 + (((length : Int) - 1).fdiv 8 + 1).toNat + 2

/-- `ModBus.writeCoilBuffer` (FC 5). -/
def writeCoilBuffer (address dataAddress : Nat) (state : Bool) : List Nat :=
  appendCrc ([address % 256, 5] ++ u16BE dataAddress ++
    u16BE (if state then 0xff00 else 0x0000))

/-- `ModBus.writeRegisterBuffer` (FC 6). -/
def writeRegisterBuffer (address dataAddress value : Nat) : List Nat :=
  appendCrc ([address % 256, 6] ++ u16BE dataAddress ++ u16BE value)

/-- The packed coil bytes of `ModBus.writeCoilsBuffer`: bytes are zeroed,
then `view.setBit(7, i, true)` ORs bit `i % 8` into byte `7 + i / 8` for
every true state. -/
def packedCoilByte (states : List Bool) (k : Nat) : Nat :=
  (List.range 8).foldl (fun byte j => if states.getD (8 * k + j) false then byte ||| (1 <<< j) else byte) 0

/-- `ModBus.writeCoilsBuffer` (FC 15): `dataBytes = ceil(states.length/8)`,
layout `[address][15][dataAddress BE][count BE][dataBytes][packed][crc LE]`. -/
def writeCoilsBuffer (address dataAddress : Nat) (states : List Bool) : List Nat :=
  let dataBytes := (states.length + 7) / 8
  appendCrc ([address % 256, 15] ++ u16BE dataAddress ++ u16BE states.length ++
    [dataBytes % 256] ++ (List.range dataBytes).map (packedCoilByte states))

/-- `ModBus.writeRegistersBuffer` (FC 16). -/
def writeRegistersBuffer (address dataAddress : Nat) (values : List Nat) : List Nat :=
  appendCrc ([address % 256, 16] ++ u16BE dataAddress ++ u16BE values.length ++
    [(values.length * 2) % 256] ++ values.flatMap u16BE)

/-- A call to `writeBufferWithExpectation`: the encoded buffer plus the
expectation the operation registers. -/
structure Request where
  buffer : List Nat
  expectation : Expectation
deriving DecidableEq, Repr

/-- `ModBus.readCoilStatus` (FC 1) via `readStatus`. -/
def readCoilStatus (address dataAddress length : Nat) : Request :=
  ⟨readStatusBuffer address dataAddress length 1,
   ⟨address, 1, statusExpectedLength length⟩⟩

/-- `ModBus.readInputStatus` (FC 2) via `readStatus`. -/
def readInputStatus (address dataAddress length : Nat) : Request :=
  ⟨readStatusBuffer address dataAddress length 2,
   ⟨address, 2, statusExpectedLength length⟩⟩

/-- `ModBus.readHoldingRegisters` (FC 3) via `readRegisters`
(expected length `3 + 2 * length + 2`). -/
def readHoldingRegisters (address dataAddress length : Nat) : Request :=
  ⟨readStatusBuffer address dataAddress length 3, ⟨address, 3, 3 + 2 * length + 2⟩⟩

/-- `ModBus.readInputRegisters` (FC 4) via `readRegisters`. -/
def readInputRegisters (address dataAddress length : Nat) : Request :=
  ⟨readStatusBuffer address dataAddress length 4, ⟨address, 4, 3 + 2 * length + 2⟩⟩

/-- `ModBus.writeCoil` (FC 5, expected length 8). -/
def writeCoil (address dataAddress : Nat) (state : Bool) : Request :=
  ⟨writeCoilBuffer address dataAddress state, ⟨address, 5, 8⟩⟩

/-- `ModBus.writeRegister` (FC 6, expected length 8). -/
def writeRegister (address dataAddress value : Nat) : Request :=
  ⟨writeRegisterBuffer address dataAddress value, ⟨address, 6, 8⟩⟩

/-- `ModBus.writeCoils` (FC 15, expected length 8). -/
def writeCoils (address dataAddress : Nat) (states : List Bool) : Request :=
  ⟨writeCoilsBuffer address dataAddress states, ⟨address, 15, 8⟩⟩

/-- `ModBus.writeRegisters` (FC 16, expected length 8). -/
def writeRegisters (address dataAddress : Nat) (values : List Nat) : Request :=
  ⟨writeRegistersBuffer address dataAddress values, ⟨address, 16, 8⟩⟩

/-! ## The request queue / correlator

`writeBufferWithExpectation` chains every new request onto `queuePromise`
with `prevPromise.catch(…).finally(dispatch)`: the dispatch continuation
of request `k+1` runs only once request `k`'s promise has settled, and a
request's promise settles exactly when `resolveExpectation` /
`rejectExpectation` runs for it (clearing `currentExpectation`).  The
chained continuations therefore form a FIFO queue of pending dispatches,
each enabled only when no expectation is outstanding.  The timeout sweep
(`addExpectationTimeout` + the interval callback) calls
`rejectExpectation('EXPECT_TIMEOUT …')` while an expectation is pending. -/

/-- The correlator's state: dispatch continuations not yet run
(`pending`, FIFO), the bus state, the trace of transport writes, and the
history of invocations (for stating FIFO order). -/
structure CorrState where
  pending : List Request
  bus : BusState
  writes : List (List Nat)
  invoked : List Request
deriving DecidableEq, Repr

/-- A fresh `ModBus` instance: empty buffer, no expectation, resolved
initial `queuePromise`. -/
def initState : CorrState := ⟨[], ⟨[], none, []⟩, [], []⟩

/-- A caller invokes an operation: the synchronous part of
`writeBufferWithExpectation` only chains the dispatch continuation onto
the current `queuePromise`. -/
def invokeStep (s : CorrState) (r : Request) : CorrState :=
  { s with pending := s.pending ++ [r], invoked := s.invoked ++ [r] }

/-- The `.finally` continuation of `writeBufferWithExpectation` runs:
arm the expectation, reset `readingBuffer` to empty, then hand the
encoded buffer to `write`. -/
def dispatchStep (s : CorrState) (r : Request) (rest : List Request) : CorrState :=
  { s with pending := rest,
           bus := { readingBuffer := [], currentExpectation := some r.expectation,
                    settlements := s.bus.settlements },
           writes := s.writes ++ [r.buffer] }

/-- The timeout sweep fires for the pending expectation:
`rejectExpectation('EXPECT_TIMEOUT …')`.  `readingBuffer` is untouched. -/
def timeoutStep (s : CorrState) : CorrState :=
  { s with
    bus := { s.bus with
             currentExpectation := none,
             settlements := s.bus.settlements ++ [.rejected .expectTimeout] } }

/-- The transport delivers bytes: `ModBus.read(chunk)`. -/
def feedStep (s : CorrState) (chunk : List Nat) : CorrState :=
  { s with bus := s.bus.read chunk }

/-- The correlator's transitions.  `dispatch` is enabled exactly when the
previous request's promise has settled — equivalently (there is never
more than one outstanding expectation) when `currentExpectation` is
cleared — and takes the head of the FIFO chain. -/
inductive CorrStep : CorrState → CorrState → Prop where
  | invoke (s : CorrState) (r : Request) : CorrStep s (invokeStep s r)
  | dispatch (s : CorrState) (r : Request) (rest : List Request)
      (hexp : s.bus.currentExpectation = none) (hq : s.pending = r :: rest) :
      CorrStep s (dispatchStep s r rest)
  | timeout (s : CorrState) (e : Expectation)
      (h : s.bus.currentExpectation = some e) : CorrStep s (timeoutStep s)
  | feed (s : CorrState) (chunk : List Nat) : CorrStep s (feedStep s chunk)

/-- States reachable from a fresh instance. -/
inductive Reachable : CorrState → Prop where
  | init : Reachable initState
  | step {s t : CorrState} : Reachable s → CorrStep s t → Reachable t

/-- 1 when an expectation is outstanding, else 0. -/
def inflight (st : BusState) : Nat := if st.currentExpectation.isSome then 1 else 0

/-! ## Basic facts about the decoders and the read loop. -/

theorem frameLengthIn_ge (b : List Nat) : 5 ≤ frameLengthIn b := by
  unfold frameLengthIn; split <;> omega

theorem parseIncomingFrame_some {b : List Nat} {f : Frame}
    (h : parseIncomingFrame b = some f) :
    f.length = frameLengthIn b ∧ 5 ≤ f.length ∧ f.length ≤ b.length := by
  unfold parseIncomingFrame at h
  split at h
  · simp at h
  · rename_i hlen
    cases h
    refine ⟨rfl, frameLengthIn_ge b, ?_⟩
    show frameLengthIn b ≤ b.length
    omega

theorem tryParse_true_ok {b : List Nat} {f : Frame} {r : Option ModResult}
    (h : tryParse b true = .ok f r) :
    parseIncomingFrame b = some f ∧ f.crc = crc16 f.data ∧
      r = incomingResult f ∧ 5 ≤ b.length := by
  unfold tryParse at h
  split at h
  · simp at h
  · rename_i hb
    rw [if_pos rfl] at h
    split at h
    · simp at h
    · rename_i f0 hp
      split at h
      · simp at h
      · rename_i hcrc
        rw [if_pos rfl] at h
        rw [ParseOutcome.ok.injEq] at h
        obtain ⟨rfl, rfl⟩ := h
        exact ⟨hp, by simpa using hcrc, rfl, by omega⟩

theorem tryParse_true_crc {b : List Nat} {f : Frame}
    (h : tryParse b true = .crcError f) :
    parseIncomingFrame b = some f ∧ 5 ≤ b.length := by
  unfold tryParse at h
  split at h
  · simp at h
  · rename_i hb
    rw [if_pos rfl] at h
    split at h
    · simp at h
    · rename_i f0 hp
      split at h
      · rename_i hcrc
        rw [ParseOutcome.crcError.injEq] at h
        subst h
        exact ⟨hp, by omega⟩
      · rw [if_pos rfl] at h
        simp at h

theorem tryParse_tooShort {b : List Nat} (h : b.length < 5) (inc : Bool) :
    tryParse b inc = .tooShort := by
  unfold tryParse
  rw [if_pos h]

/-- The read loop is insensitive to the fuel as soon as the fuel exceeds
the buffer length (each recursing branch consumes at least 5 bytes). -/
theorem readLoopF_fuel {n : Nat} {st : BusState} {b : List Nat} {m : Nat}
    (hn : b.length < n) (hm : b.length < m) :
    readLoopF n st b = readLoopF m st b := by
  induction n using Nat.strong_induction_on generalizing m st b with
  | _ n ih =>
    cases n with
    | zero => omega
    | succ n' =>
      cases m with
      | zero => omega
      | succ m' =>
        simp only [readLoopF]
        cases htp : tryParse b true with
        | ok frame result =>
          obtain ⟨hp, -, -, hb5⟩ := tryParse_true_ok htp
          obtain ⟨-, hf5, hfb⟩ := parseIncomingFrame_some hp
          have hd : (b.drop frame.length).length < n' ∧ (b.drop frame.length).length < m' := by
            simp only [List.length_drop]; omega
          simp only
          split
          · exact ih n' (by omega) hd.1 hd.2
          · cases st.currentExpectation with
            | none => simp
            | some e => simp only; exact ih n' (by omega) hd.1 hd.2
        | crcError frame =>
          obtain ⟨hp, hb5⟩ := tryParse_true_crc htp
          obtain ⟨-, hf5, hfb⟩ := parseIncomingFrame_some hp
          have hd : (b.drop frame.length).length < n' ∧ (b.drop frame.length).length < m' := by
            simp only [List.length_drop]; omega
          exact ih n' (by omega) hd.1 hd.2
        | tooShort => simp
        | frameError => simp

/-- The read loop never looks at the incoming `readingBuffer` field: it
overwrites it on every exit path. -/
theorem readLoopF_rb (n : Nat) (r1 r2 : List Nat) (ce : Option Expectation)
    (ss : List Settlement) (b : List Nat) :
    readLoopF n ⟨r1, ce, ss⟩ b = readLoopF n ⟨r2, ce, ss⟩ b := by
  induction n generalizing r1 r2 ce ss b with
  | zero => simp [readLoopF]
  | succ n' ih =>
    simp only [readLoopF]
    cases htp : tryParse b true with
    | ok frame result =>
      simp only
      split
      · exact ih _ _ _ _ _
      · cases ce with
        | none => simp
        | some e => simp only; exact ih _ _ _ _ _
    | crcError frame => exact ih _ _ _ _ _
    | tooShort => simp
    | frameError => simp

theorem isExpecting_isSome {exp : Option Expectation} {f : Frame}
    (h : isExpecting exp f = true) : exp.isSome := by
  cases exp with
  | none => simp [isExpecting] at h
  | some e => rfl

/-- Settlement bookkeeping of one `read` call: every settlement the loop
appends clears the outstanding expectation, so
`settlements + inflight` is preserved. -/
theorem readLoopF_settle (n : Nat) (st : BusState) (b : List Nat) :
    (readLoopF n st b).settlements.length + inflight (readLoopF n st b)
      = st.settlements.length + inflight st := by
  induction n generalizing st b with
  | zero => simp [readLoopF, inflight]
  | succ n' ih =>
    simp only [readLoopF]
    cases htp : tryParse b true with
    | ok frame result =>
      simp only
      split
      · rename_i hexp
        rw [ih]
        have := isExpecting_isSome hexp
        simp only [inflight, List.length_append, List.length_cons, List.length_nil]
        simp [this]
      · cases hce : st.currentExpectation with
        | none => simp [inflight, hce]
        | some e =>
          simp only
          rw [ih]
          simp [inflight, hce]
    | crcError frame => exact ih _ _
    | tooShort => simp [inflight]
    | frameError => simp [inflight]

/-- `ModBus.read` preserves `settlements + inflight`, and leaves the
other correlator fields alone. -/
theorem read_settle (st : BusState) (chunk : List Nat) :
    (st.read chunk).settlements.length + inflight (st.read chunk)
      = st.settlements.length + inflight st :=
  readLoopF_settle _ st _

/-- The inductive invariant of the request queue: the number of
transport writes equals the number of settlements plus the in-flight
request (0 or 1); the writes are exactly the encodings of the first
`writes.length` invocations in order; and the pending dispatch
continuations are exactly the remaining invocations in order. -/
def CorrInv (s : CorrState) : Prop :=
  s.writes.length = s.bus.settlements.length + inflight s.bus ∧
  s.writes = (s.invoked.take s.writes.length).map Request.buffer ∧
  s.pending = s.invoked.drop s.writes.length

theorem reachable_inv {s : CorrState} (h : Reachable s) : CorrInv s := by
  induction h with
  | init => exact ⟨rfl, rfl, rfl⟩
  | @step s t hr hs ih =>
    obtain ⟨ih1, ih2, ih3⟩ := ih
    have hw : s.writes.length ≤ s.invoked.length := by
      have := congrArg List.length ih2
      simp only [List.length_map, List.length_take] at this
      omega
    cases hs with
    | invoke r =>
      refine ⟨ih1, ?_, ?_⟩
      · simp only [invokeStep]
        rw [List.take_append_of_le_length hw]
        exact ih2
      · simp only [invokeStep]
        rw [List.drop_append_of_le_length hw, ← ih3]
    | dispatch r rest hexp hq =>
      have hhead : s.invoked[s.writes.length]? = some r := by
        rw [← List.head?_drop, ← ih3, hq]
        rfl
      refine ⟨?_, ?_, ?_⟩
      · simp only [dispatchStep, List.length_append, List.length_cons, List.length_nil,
          inflight, Option.isSome_some, if_pos]
        simp only [inflight, hexp, Option.isSome_none] at ih1
        simp at ih1
        omega
      · simp only [dispatchStep, List.length_append, List.length_cons, List.length_nil]
        rw [List.take_succ, hhead]
        simp only [Option.toList_some, List.map_append, List.map_cons, List.map_nil]
        rw [← ih2]
      · simp only [dispatchStep, List.length_append, List.length_cons, List.length_nil]
        rw [← List.tail_drop, ← ih3, hq]
        rfl
    | timeout e hexp =>
      refine ⟨?_, ih2, ih3⟩
      simp only [timeoutStep, inflight, hexp, Option.isSome_some, if_pos] at ih1 ⊢
      simp only [List.length_append, List.length_cons, List.length_nil, Option.isSome_none]
      simp at ih1 ⊢
      omega
    | feed chunk =>
      refine ⟨?_, ih2, ih3⟩
      simp only [feedStep]
      rw [read_settle]
      exact ih1

/-! ## A step calculus for the read loop. -/

/-- One unfolding of the loop body. -/
theorem readLoopF_succ (fuel : Nat) (st : BusState) (b : List Nat) :
    readLoopF (fuel + 1) st b =
      match tryParse b true with
      | .ok frame result =>
        if isExpecting st.currentExpectation frame then
          readLoopF fuel
            { st with currentExpectation := none,
                      settlements := st.settlements ++ [.resolved result] }
            (b.drop frame.length)
        else
          match st.currentExpectation with
          | some _ =>
            readLoopF fuel
              { st with currentExpectation := none,
                        settlements := st.settlements ++ [.rejected .unexpectedResponse] }
              (b.drop frame.length)
          | none => { st with readingBuffer := b }
      | .crcError frame => readLoopF fuel st (b.drop frame.length)
      | .tooShort => { st with readingBuffer := b }
      | .frameError => { st with readingBuffer := b } := rfl

/-- A `TooShortError` or `FrameError` breaks the loop, storing the
assembled bytes back in `readingBuffer`. -/
theorem readLoop_stop {st : BusState} {b : List Nat}
    (h : tryParse b true = .tooShort ∨ tryParse b true = .frameError) :
    readLoop st b = { st with readingBuffer := b } := by
  unfold readLoop
  rw [readLoopF_succ]
  rcases h with h | h <;> rw [h]

/-- A parsed frame with no pending expectation: `isExpecting` is false,
`rejectExpectation` throws destructuring `undefined`, the `catch` breaks
the loop and the frame's bytes stay in the buffer. -/
theorem readLoop_none_break {st : BusState} {b : List Nat} {f : Frame} {r : Option ModResult}
    (hce : st.currentExpectation = none) (h : tryParse b true = .ok f r) :
    readLoop st b = { st with readingBuffer := b } := by
  unfold readLoop
  rw [readLoopF_succ, h]
  simp only [hce, isExpecting]
  simp

/-- A CRC failure skips the frame's declared length and continues. -/
theorem readLoop_crc_skip {st : BusState} {b : List Nat} {f : Frame}
    (h : tryParse b true = .crcError f) :
    readLoop st b = readLoop st (b.drop f.length) := by
  obtain ⟨hp, hb5⟩ := tryParse_true_crc h
  obtain ⟨-, hf5, hfb⟩ := parseIncomingFrame_some hp
  have hd : (b.drop f.length).length = b.length - f.length := List.length_drop ..
  conv_lhs => unfold readLoop
  rw [readLoopF_succ, h]
  unfold readLoop
  exact readLoopF_fuel (by omega) (by omega)

/-- A matching frame resolves the expectation and the loop continues past
the frame. -/
theorem readLoop_resolve_step {st : BusState} {b : List Nat} {f : Frame} {r : Option ModResult}
    (h : tryParse b true = .ok f r) (hexp : isExpecting st.currentExpectation f = true) :
    readLoop st b = readLoop
      { st with currentExpectation := none,
                settlements := st.settlements ++ [.resolved r] } (b.drop f.length) := by
  obtain ⟨hp, -, -, hb5⟩ := tryParse_true_ok h
  obtain ⟨-, hf5, hfb⟩ := parseIncomingFrame_some hp
  have hd : (b.drop f.length).length = b.length - f.length := List.length_drop ..
  conv_lhs => unfold readLoop
  rw [readLoopF_succ, h]
  simp only [hexp, if_pos]
  unfold readLoop
  exact readLoopF_fuel (by omega) (by omega)

/-- A CRC-valid, non-matching frame while an expectation is pending:
`rejectExpectation('UNEXPECTED_RESPONSE')`, and the loop continues past
the frame. -/
theorem readLoop_reject_step {st : BusState} {b : List Nat} {f : Frame} {r : Option ModResult}
    {e : Expectation}
    (h : tryParse b true = .ok f r) (hce : st.currentExpectation = some e)
    (hexp : isExpecting st.currentExpectation f = false) :
    readLoop st b = readLoop
      { st with currentExpectation := none,
                settlements := st.settlements ++ [.rejected .unexpectedResponse] }
      (b.drop f.length) := by
  obtain ⟨hp, -, -, hb5⟩ := tryParse_true_ok h
  obtain ⟨-, hf5, hfb⟩ := parseIncomingFrame_some hp
  have hd : (b.drop f.length).length = b.length - f.length := List.length_drop ..
  conv_lhs => unfold readLoop
  rw [readLoopF_succ, h]
  simp only [hexp, Bool.false_eq_true, if_false]
  rw [hce]
  simp only
  unfold readLoop
  exact readLoopF_fuel (by omega) (by omega)

/-- The loop result does not depend on the buffer stored in the input
state (the loop runs on its explicit byte argument). -/
theorem readLoop_rb (st : BusState) (r b : List Nat) :
    readLoop { st with readingBuffer := r } b = readLoop st b := by
  cases st with
  | mk rb ce ss => exact readLoopF_rb _ r rb ce ss b

/-! ## Bit-unpacking facts (for the coil decoder). -/

theorem coilStates_length (d : List Nat) (base count : Nat) :
    (coilStates d base count).length = 8 * count := by
  induction count with
  | zero => rfl
  | succ n ih =>
    rw [coilStates, List.range_succ, List.flatMap_append, List.length_append, ← coilStates, ih]
    simp [Nat.mul_succ]

theorem coilStates_getD (d : List Nat) (base count i j : Nat) (hi : i < count) (hj : j < 8) :
    (coilStates d base count).getD (8 * i + j) false = (byteAt d (i + base)).testBit j := by
  induction count with
  | zero => omega
  | succ n ih =>
    rw [coilStates, List.range_succ, List.flatMap_append, ← coilStates]
    rcases Nat.lt_or_ge i n with h | h
    · rw [List.getD_append _ _ _ _ (by rw [coilStates_length]; omega)]
      exact ih h
    · have hin : i = n := by omega
      subst hin
      rw [List.getD_append_right _ _ _ _ (by rw [coilStates_length]; omega)]
      rw [coilStates_length]
      have hj8 : 8 * i + j - 8 * i = j := by omega
      rw [hj8]
      simp only [List.flatMap_cons, List.flatMap_nil, List.append_nil]
      rw [List.getD_eq_getElem _ _ (by simpa using hj)]
      simp

/-! ## More decoder facts. -/

theorem tryParse_true_of_crcbad {B : List Nat} {f : Frame}
    (hp : parseIncomingFrame B = some f) (h5 : 5 ≤ B.length)
    (hc : f.crc ≠ crc16 f.data) : tryParse B true = .crcError f := by
  unfold tryParse
  rw [if_neg (by omega), if_pos rfl, hp]
  simp only [if_pos hc]

theorem tryParse_true_of_ok {B : List Nat} {f : Frame}
    (hp : parseIncomingFrame B = some f) (h5 : 5 ≤ B.length)
    (hc : f.crc = crc16 f.data) : tryParse B true = .ok f (incomingResult f) := by
  unfold tryParse
  rw [if_neg (by omega), if_pos rfl, hp]
  simp only [hc, ne_eq, not_true_eq_false, if_false, if_pos rfl]
  rw [if_pos trivial]

theorem byteAt_take {l : List Nat} {n j : Nat} (h : j < n) :
    byteAt (l.take n) j = byteAt l j := by
  unfold byteAt
  rw [List.getD_eq_getElem?_getD, List.getD_eq_getElem?_getD, List.getElem?_take, if_pos h]

theorem frameLengthIn_take {B : List Nat} {i : Nat} (h : 5 ≤ i) :
    frameLengthIn (B.take i) = frameLengthIn B := by
  unfold frameLengthIn
  rw [byteAt_take (by omega), byteAt_take (by omega)]

/-! ## The claims. -/

/-- Claim C1, counterexample.  Feed the frame
`01 01 02 03 00 | 00 00` — declared length 7, CRC trailer `0x0000` while
the computed CRC over `01 01 02 03 00` is `0x0CB9` — to `read()` while the
expectation `{address 1, code 1, length 7}` is pending.  The claim says
the pending Expectation is rejected (ChecksumFault); in fact the code's
`catch` for `CRCError` only skips the frame's declared bytes and
continues: afterwards `currentExpectation` is still the same pending
expectation and no settlement (no rejection) has happened, although the
malformed frame's 7 bytes were discarded from the reassembly buffer. -/
theorem c1_counterexample :
    BusState.read ⟨[], some ⟨1, 1, 7⟩, []⟩ [1, 1, 2, 3, 0, 0, 0]
        = ⟨[], some ⟨1, 1, 7⟩, []⟩ ∧
      tryParse [1, 1, 2, 3, 0, 0, 0] true = .crcError ⟨0, 1, 1, 7, [1, 1, 2, 3, 0]⟩ ∧
      crc16 [1, 1, 2, 3, 0] = 0x0cb9 := by
  decide

/-- Claim C1 as amended: when `read()` assembles a buffer whose head
decodes to a frame with a CRC mismatch, the malformed frame's bytes (its
declared length) are discarded from the reassembly buffer, but the
pending Expectation is NOT rejected: `currentExpectation` and the
settlement trace are unchanged (the expectation stays pending until a
later frame or its timeout settles it).  Stated for the case where the
remainder after the bad frame is below the 5-byte minimum, so the loop
stops there. -/
theorem c1_crc_discards_but_keeps_expectation (st : BusState) (chunk : List Nat) (f : Frame)
    (hrb : st.readingBuffer = [])
    (h : tryParse chunk true = .crcError f)
    (hrest : (chunk.drop f.length).length < 5) :
    st.read chunk = { st with readingBuffer := chunk.drop f.length } := by
  unfold BusState.read
  rw [hrb]
  show readLoop st chunk = _
  rw [readLoop_crc_skip h]
  exact readLoop_stop (Or.inl (tryParse_tooShort hrest true))

/-- Witness for the amended C1 at the counterexample's input. -/
theorem c1_witness :
    BusState.read ⟨[], some ⟨1, 1, 7⟩, []⟩ [1, 1, 2, 3, 0, 0, 0]
      = ⟨[], some ⟨1, 1, 7⟩, []⟩ := by
  have := c1_crc_discards_but_keeps_expectation ⟨[], some ⟨1, 1, 7⟩, []⟩
    [1, 1, 2, 3, 0, 0, 0] ⟨0, 1, 1, 7, [1, 1, 2, 3, 0]⟩ rfl (by decide) (by decide)
  simpa using this

/-- Claim C2.  Outgoing decode (`tryParse` with `incoming = false`) of
the encoders' buffers.  For the six 8-byte operations (function codes
1–6) the decode recovers unit address, function code, data address and
payload.  For WriteMultipleCoils (15) and WriteMultipleRegisters (16)
the decoder contradicts the encoder (a code bug): it reads the byte
count from offset 5 — the low byte of the element count; the encoder
stores it at offset 6 — and totals the frame as `10 + n` instead of
`9 + n`.  Hence decoding the complete FC15 request
`writeCoils(1, 0, [true])` fails with `FrameError`, and decoding the
FC16 request `writeRegisters(1, 0, [5])` (whose sizes collide by
accident) reads the register payload from offset 3 instead of 7 and
returns `data = [0]` instead of the encoded `[5]`. -/
theorem c2_outgoing_roundtrip :
    tryParse (readCoilStatus 1 2 3).buffer false
        = .ok ⟨crc16 [1, 1, 0, 2, 0, 3], 1, 1, 8, [1, 1, 0, 2, 0, 3]⟩
            (some { address := some 2, length := some 3 }) ∧
      tryParse (readInputStatus 1 2 3).buffer false
        = .ok ⟨crc16 [1, 2, 0, 2, 0, 3], 1, 2, 8, [1, 2, 0, 2, 0, 3]⟩
            (some { address := some 2, length := some 3 }) ∧
      tryParse (readHoldingRegisters 1 2 3).buffer false
        = .ok ⟨crc16 [1, 3, 0, 2, 0, 3], 1, 3, 8, [1, 3, 0, 2, 0, 3]⟩
            (some { address := some 2, length := some 3 }) ∧
      tryParse (readInputRegisters 1 2 3).buffer false
        = .ok ⟨crc16 [1, 4, 0, 2, 0, 3], 1, 4, 8, [1, 4, 0, 2, 0, 3]⟩
            (some { address := some 2, length := some 3 }) ∧
      tryParse (writeCoil 1 2 true).buffer false
        = .ok ⟨crc16 [1, 5, 0, 2, 255, 0], 1, 5, 8, [1, 5, 0, 2, 255, 0]⟩
            (some { address := some 2, states := some [true] }) ∧
      tryParse (writeRegister 1 2 7).buffer false
        = .ok ⟨crc16 [1, 6, 0, 2, 0, 7], 1, 6, 8, [1, 6, 0, 2, 0, 7]⟩
            (some { address := some 2, data := some [7] }) ∧
      tryParse (writeCoils 1 0 [true]).buffer false = .frameError ∧
      tryParse (writeRegisters 1 0 [5]).buffer false
        = .ok ⟨crc16 [1, 16, 0, 0, 0, 1, 2, 0, 5], 1, 16, 11, [1, 16, 0, 0, 0, 1, 2, 0, 5]⟩
            (some { address := some 0, data := some [0] }) := by
  decide

/-- Claim C4 (Scenario A).  Dispatching ReadCoils(unit 1, address 0,
count 16) writes exactly `01 01 00 00 00 10 3D C6` (CRC-16, polynomial
0xA001, init 0xFFFF, appended little-endian) to the transport, and
feeding back `01 01 02 03 00 B9 0C` resolves the caller's result with
states bit 0 = true, bit 1 = true, bit 5 = false (the full unpacked
16-bit vector of payload `03 00`). -/
theorem c4_scenario_a :
    (readCoilStatus 1 0 16).buffer = [0x01, 0x01, 0x00, 0x00, 0x00, 0x10, 0x3d, 0xc6] ∧
      (feedStep (dispatchStep (invokeStep initState (readCoilStatus 1 0 16))
          (readCoilStatus 1 0 16) []) [0x01, 0x01, 0x02, 0x03, 0x00, 0xb9, 0x0c])
        = ⟨[],
           ⟨[], none, [.resolved (some { states := some [true, true, false, false, false,
             false, false, false, false, false, false, false, false, false, false, false] })]⟩,
           [[0x01, 0x01, 0x00, 0x00, 0x00, 0x10, 0x3d, 0xc6]],
           [readCoilStatus 1 0 16]⟩ := by
  decide

/-- Claim C8.  At a dispatch (the Idle → AwaitingResponse transition,
i.e. the `.finally` continuation of `writeBufferWithExpectation`) the
reassembly buffer is reset to empty — the source clears
`this.readingBuffer` before calling `this.write(buffer)` — and the
encoded request buffer is appended to the transport writes, so bytes
received before the dispatch cannot contribute to decoding the response;
a firing timeout, by contrast, leaves the reassembly buffer untouched. -/
theorem c8_dispatch_resets_buffer (s : CorrState) (r : Request) (rest : List Request) :
    (dispatchStep s r rest).bus.readingBuffer = [] ∧
      (dispatchStep s r rest).writes = s.writes ++ [r.buffer] ∧
      (timeoutStep s).bus.readingBuffer = s.bus.readingBuffer :=
  ⟨rfl, rfl, rfl⟩

/-- Claim C10.  A CRC-valid frame fed to `read()` while no Expectation is
pending: `isExpecting` returns false, `rejectExpectation` throws while
destructuring the `undefined` expectation, the `catch` breaks the loop —
so no result is settled, no exception escapes `read()`, and the frame's
bytes are not consumed: the whole assembled buffer (the frame at its
front) is stored back into the reassembly buffer, where it stays until
the next dispatch resets it. -/
theorem c10_unexpected_frame_kept (st : BusState) (chunk : List Nat) (f : Frame)
    (r : Option ModResult)
    (hce : st.currentExpectation = none)
    (h : tryParse (st.readingBuffer ++ chunk) true = .ok f r) :
    st.read chunk = { st with readingBuffer := st.readingBuffer ++ chunk } :=
  readLoop_none_break hce h

/-- Witness for C10: a valid ReadCoils response arriving with no pending
expectation is fully retained and settles nothing. -/
theorem c10_witness :
    BusState.read ⟨[], none, []⟩ [1, 1, 2, 3, 0, 185, 12]
      = ⟨[1, 1, 2, 3, 0, 185, 12], none, []⟩ := by
  have := c10_unexpected_frame_kept ⟨[], none, []⟩ [1, 1, 2, 3, 0, 185, 12]
    ⟨3257, 1, 1, 7, [1, 1, 2, 3, 0]⟩
    (some { states := some [true, true, false, false, false, false, false, false,
                            false, false, false, false, false, false, false, false] })
    rfl (by decide)
  simpa using this

/-- Claim C5.  (1) With an expectation pending, `isExpecting` is true iff
all three of `frame.address = e.address`, `frame.length = e.length` and
`frame.code = e.code` hold.  (2) When a CRC-valid frame disagrees on any
of the three, `read()` rejects the pending result with
`UNEXPECTED_RESPONSE` (clearing the expectation) rather than silently
dropping the frame.  (Stated for the case where the remainder after the
frame is below the 5-byte minimum, so the loop stops there.) -/
theorem c5_match_iff_and_reject (e : Expectation) (f : Frame) (st : BusState)
    (chunk : List Nat) (r : Option ModResult)
    (hrb : st.readingBuffer = []) (hce : st.currentExpectation = some e)
    (h : tryParse chunk true = .ok f r)
    (hmis : isExpecting (some e) f = false)
    (hrest : (chunk.drop f.length).length < 5) :
    (∀ g : Frame, isExpecting (some e) g = true ↔
      (g.address = e.address ∧ g.length = e.length ∧ g.code = e.code)) ∧
    st.read chunk = { readingBuffer := chunk.drop f.length, currentExpectation := none,
                      settlements := st.settlements ++ [.rejected .unexpectedResponse] } := by
  constructor
  · intro g
    simp [isExpecting, Bool.and_eq_true, beq_iff_eq, and_assoc]
  · unfold BusState.read
    rw [hrb]
    show readLoop st chunk = _
    rw [readLoop_reject_step h hce (by rw [hce]; exact hmis)]
    rw [readLoop_stop (Or.inl (tryParse_tooShort hrest true))]

/-- Witness for C5: a valid FC1 response frame while an FC3 expectation
(same address, same length 7) is pending is rejected as unexpected. -/
theorem c5_witness :
    (∀ g : Frame, isExpecting (some ⟨1, 3, 7⟩) g = true ↔
      (g.address = 1 ∧ g.length = 7 ∧ g.code = 3)) ∧
    BusState.read ⟨[], some ⟨1, 3, 7⟩, []⟩ [1, 1, 2, 3, 0, 185, 12]
      = { readingBuffer := [], currentExpectation := none,
          settlements := [.rejected .unexpectedResponse] } := by
  have := c5_match_iff_and_reject ⟨1, 3, 7⟩ ⟨3257, 1, 1, 7, [1, 1, 2, 3, 0]⟩
    ⟨[], some ⟨1, 3, 7⟩, []⟩ [1, 1, 2, 3, 0, 185, 12]
    (some { states := some [true, true, false, false, false, false, false, false,
                            false, false, false, false, false, false, false, false] })
    rfl rfl (by decide) (by decide) (by decide)
  simpa using this

/-- Claim C6.  Inbound frame-length computation: `byteCountField + 5`
for function codes 1–4, the fixed value 8 for codes 5, 6, 15, 16; and
when the available buffer is shorter than the computed length, decoding
returns the insufficient-data signal (`undefined`, i.e. `none`) and a
`read()` call stops with the assembled bytes retained unchanged in the
reassembly buffer. -/
theorem c6_incoming_length (b : List Nat) (st : BusState)
    (hrb : st.readingBuffer = []) (h5 : 5 ≤ b.length)
    (hshort : b.length < frameLengthIn b) :
    (1 ≤ byteAt b 1 → byteAt b 1 ≤ 4 → frameLengthIn b = byteAt b 2 + 5) ∧
    ((byteAt b 1 = 5 ∨ byteAt b 1 = 6 ∨ byteAt b 1 = 15 ∨ byteAt b 1 = 16) →
      frameLengthIn b = 8) ∧
    parseIncomingFrame b = none ∧
    st.read b = { st with readingBuffer := b } := by
  have hnone : parseIncomingFrame b = none := by
    unfold parseIncomingFrame
    rw [if_pos hshort]
  refine ⟨?_, ?_, hnone, ?_⟩
  · intro h1 h4
    unfold frameLengthIn
    rw [if_pos ⟨h1, h4⟩]
  · intro hc
    unfold frameLengthIn
    rw [if_neg (by omega)]
  · have htp : tryParse b true = .frameError := by
      unfold tryParse
      rw [if_neg (by omega), if_pos rfl, hnone]
    unfold BusState.read
    rw [hrb]
    exact readLoop_stop (Or.inr htp)

/-- Witness for C6: `01 01 02 03 00` declares a 7-byte frame but only 5
bytes are available; the buffer is retained. -/
theorem c6_witness :
    (1 ≤ byteAt [1, 1, 2, 3, 0] 1 → byteAt [1, 1, 2, 3, 0] 1 ≤ 4 →
      frameLengthIn [1, 1, 2, 3, 0] = byteAt [1, 1, 2, 3, 0] 2 + 5) ∧
    ((byteAt [1, 1, 2, 3, 0] 1 = 5 ∨ byteAt [1, 1, 2, 3, 0] 1 = 6 ∨
      byteAt [1, 1, 2, 3, 0] 1 = 15 ∨ byteAt [1, 1, 2, 3, 0] 1 = 16) →
      frameLengthIn [1, 1, 2, 3, 0] = 8) ∧
    parseIncomingFrame [1, 1, 2, 3, 0] = none ∧
    BusState.read ⟨[], some ⟨1, 1, 7⟩, []⟩ [1, 1, 2, 3, 0]
      = ⟨[1, 1, 2, 3, 0], some ⟨1, 1, 7⟩, []⟩ := by
  have := c6_incoming_length [1, 1, 2, 3, 0] ⟨[], some ⟨1, 1, 7⟩, []⟩
    rfl (by decide) (by decide)
  simpa using this

/-- Claim C3.  In every reachable correlator state the number of
transport writes equals the number of settlements plus the in-flight
count (which is at most 1) — so a second write can only happen after the
first request settled (resolved, rejected, or timed out) — and the
writes are exactly the encodings of the invocations in FIFO invocation
order.  At most one Expectation exists at any instant (the state holds
an `Option Expectation`, and `inflight ≤ 1`). -/
theorem c3_single_flight (s : CorrState) (h : Reachable s) :
    s.writes.length = s.bus.settlements.length + inflight s.bus ∧
    inflight s.bus ≤ 1 ∧
    s.writes = (s.invoked.take s.writes.length).map Request.buffer := by
  obtain ⟨h1, h2, -⟩ := reachable_inv h
  refine ⟨h1, ?_, h2⟩
  unfold inflight
  split <;> omega

/-- A concrete reachable state for the C3 witness: invoke, dispatch, and
feed a full matching response. -/
def chainDemo : CorrState :=
  feedStep (dispatchStep (invokeStep initState (readCoilStatus 1 0 16))
    (readCoilStatus 1 0 16) []) [1, 1, 2, 3, 0, 185, 12]

/-- Witness for C3 at a concrete reachable state. -/
theorem c3_witness :
    chainDemo.writes.length = chainDemo.bus.settlements.length + inflight chainDemo.bus ∧
    inflight chainDemo.bus ≤ 1 ∧
    chainDemo.writes = (chainDemo.invoked.take chainDemo.writes.length).map Request.buffer :=
  c3_single_flight chainDemo
    (Reachable.step
      (Reachable.step
        (Reachable.step Reachable.init (CorrStep.invoke initState (readCoilStatus 1 0 16)))
        (CorrStep.dispatch _ (readCoilStatus 1 0 16) [] rfl rfl))
      (CorrStep.feed _ [1, 1, 2, 3, 0, 185, 12]))

/-- Claim C9.  For an inbound FC1/FC2 frame whose byte-count field
(`frame.data[2]`) is `N`, `parseCoils` produces exactly `8 * N` booleans
— one per bit of every payload byte, LSB-first (bit `8 i + j` is bit `j`
of payload byte `i`) — and the FC1/FC2 result handed to the resolver is
exactly `parseCoils frame`: the requested coil count appears nowhere, so
a request whose count is not a multiple of 8 is resolved with trailing
padding bits beyond the requested count. -/
theorem c9_coils_unpack (f : Frame) (i j : Nat)
    (hi : i < byteAt f.data 2) (hj : j < 8) :
    (parseCoils f).states = some (coilStates f.data 3 (byteAt f.data 2)) ∧
    (coilStates f.data 3 (byteAt f.data 2)).length = 8 * byteAt f.data 2 ∧
    (coilStates f.data 3 (byteAt f.data 2)).getD (8 * i + j) false
      = (byteAt f.data (i + 3)).testBit j ∧
    ((f.code = 1 ∨ f.code = 2) → incomingResult f = some (parseCoils f)) := by
  refine ⟨rfl, coilStates_length .., coilStates_getD _ _ _ _ _ hi hj, ?_⟩
  intro hc
  unfold incomingResult
  rw [if_pos hc]

/-- Witness for C9 on the Scenario-A response frame (`N = 2`, so 16
booleans even though the example request asked for 16 — and a request
for, say, 13 coils would get the same 16). -/
theorem c9_witness :
    (parseCoils ⟨3257, 1, 1, 7, [1, 1, 2, 3, 0]⟩).states
        = some (coilStates [1, 1, 2, 3, 0] 3 (byteAt [1, 1, 2, 3, 0] 2)) ∧
    (coilStates [1, 1, 2, 3, 0] 3 (byteAt [1, 1, 2, 3, 0] 2)).length
        = 8 * byteAt [1, 1, 2, 3, 0] 2 ∧
    (coilStates [1, 1, 2, 3, 0] 3 (byteAt [1, 1, 2, 3, 0] 2)).getD (8 * 0 + 1) false
        = (byteAt [1, 1, 2, 3, 0] (0 + 3)).testBit 1 ∧
    (((⟨3257, 1, 1, 7, [1, 1, 2, 3, 0]⟩ : Frame).code = 1 ∨
        (⟨3257, 1, 1, 7, [1, 1, 2, 3, 0]⟩ : Frame).code = 2) →
      incomingResult ⟨3257, 1, 1, 7, [1, 1, 2, 3, 0]⟩
        = some (parseCoils ⟨3257, 1, 1, 7, [1, 1, 2, 3, 0]⟩)) :=
  c9_coils_unpack ⟨3257, 1, 1, 7, [1, 1, 2, 3, 0]⟩ 0 1 (by decide) (by decide)

/-- Claim C7.  Partial delivery: for a complete frame `B` (its declared
length equals the number of bytes) and any split point `i`, feeding
`B.take i` and then `B.drop i` through two `read()` calls produces
exactly the same bus state — same settlement of the pending Expectation,
same final reassembly buffer — as feeding `B` in one `read()` call
(starting from an empty reassembly buffer, as after a dispatch). -/
theorem c7_split_feed (st : BusState) (B : List Nat) (i : Nat) (f : Frame)
    (hrb : st.readingBuffer = [])
    (hp : parseIncomingFrame B = some f) (hl : f.length = B.length) :
    (st.read (B.take i)).read (B.drop i) = st.read B := by
  obtain ⟨hflen, hf5, hfB⟩ := parseIncomingFrame_some hp
  have hB5 : 5 ≤ B.length := by omega
  obtain ⟨rb0, ce0, ss0⟩ := st
  simp only at hrb
  subst hrb
  have hread : ∀ l, BusState.read ⟨[], ce0, ss0⟩ l = readLoop ⟨[], ce0, ss0⟩ l :=
    fun l => rfl
  have hnil : ∀ (ce : Option Expectation) (ss : List Settlement),
      BusState.read ⟨[], ce, ss⟩ [] = ⟨[], ce, ss⟩ := by
    intro ce ss
    show readLoop ⟨[], ce, ss⟩ [] = ⟨[], ce, ss⟩
    rw [readLoop_stop (Or.inl (tryParse_tooShort (by simp) true))]
  have hfull : f.crc = crc16 f.data → ∀ ss : List Settlement,
      BusState.read ⟨B, none, ss⟩ [] = ⟨B, none, ss⟩ := by
    intro hc ss
    show readLoop ⟨B, none, ss⟩ (B ++ []) = ⟨B, none, ss⟩
    rw [List.append_nil]
    rw [readLoop_none_break rfl (tryParse_true_of_ok hp hB5 hc)]
  rcases Nat.lt_or_ge i B.length with hi | hi
  · -- the prefix is a proper prefix: the first read retains it unconsumed
    have hPlen : (B.take i).length = i := by
      rw [List.length_take]; omega
    have hstop : tryParse (B.take i) true = .tooShort ∨
        tryParse (B.take i) true = .frameError := by
      rcases Nat.lt_or_ge i 5 with h5i | h5i
      · exact Or.inl (tryParse_tooShort (by omega) true)
      · right
        have hcnd : (B.take i).length < frameLengthIn (B.take i) := by
          rw [frameLengthIn_take h5i, hPlen, ← hflen]
          omega
        have hpn : parseIncomingFrame (B.take i) = none := by
          unfold parseIncomingFrame
          rw [if_pos hcnd]
        unfold tryParse
        rw [if_neg (by omega), if_pos rfl, hpn]
    have h1 : BusState.read ⟨[], ce0, ss0⟩ (B.take i) = ⟨B.take i, ce0, ss0⟩ := by
      rw [hread]
      exact readLoop_stop hstop
    rw [h1]
    show readLoop ⟨B.take i, ce0, ss0⟩ (B.take i ++ B.drop i) = BusState.read ⟨[], ce0, ss0⟩ B
    rw [List.take_append_drop]
    exact (readLoop_rb ⟨[], ce0, ss0⟩ (B.take i) B).trans (hread B).symm
  · -- the prefix is all of B: the second read gets nothing new
    have htake : B.take i = B := List.take_of_length_le hi
    have hdropn : B.drop i = [] := List.drop_eq_nil_of_le hi
    rw [htake, hdropn, hread]
    by_cases hc : f.crc = crc16 f.data
    · have htp : tryParse B true = .ok f (incomingResult f) := tryParse_true_of_ok hp hB5 hc
      cases hce : ce0 with
      | none =>
        subst hce
        rw [readLoop_none_break rfl htp]
        exact hfull hc ss0
      | some e =>
        subst hce
        cases hex : isExpecting (some e) f with
        | true =>
          rw [readLoop_resolve_step htp hex, hl, List.drop_length]
          rw [readLoop_stop (Or.inl (tryParse_tooShort (by simp) true))]
          exact hnil none (ss0 ++ [.resolved (incomingResult f)])
        | false =>
          rw [readLoop_reject_step htp rfl hex, hl, List.drop_length]
          rw [readLoop_stop (Or.inl (tryParse_tooShort (by simp) true))]
          exact hnil none (ss0 ++ [.rejected .unexpectedResponse])
    · have htp : tryParse B true = .crcError f := tryParse_true_of_crcbad hp hB5 hc
      rw [readLoop_crc_skip htp, hl, List.drop_length]
      rw [readLoop_stop (Or.inl (tryParse_tooShort (by simp) true))]
      exact hnil ce0 ss0

/-- Witness for C7: the Scenario-A response frame split after 3 bytes. -/
theorem c7_witness :
    (BusState.read (BusState.read ⟨[], some ⟨1, 1, 7⟩, []⟩
        ([1, 1, 2, 3, 0, 185, 12].take 3)) ([1, 1, 2, 3, 0, 185, 12].drop 3))
      = BusState.read ⟨[], some ⟨1, 1, 7⟩, []⟩ [1, 1, 2, 3, 0, 185, 12] :=
  c7_split_feed ⟨[], some ⟨1, 1, 7⟩, []⟩ [1, 1, 2, 3, 0, 185, 12] 3
    ⟨3257, 1, 1, 7, [1, 1, 2, 3, 0]⟩ rfl (by decide) (by decide)

end Modbus
